import Mathlib

/-!
# Verification of the password-hashing simulation pipeline

A shallow embedding of `simulate_hashing_project.py`: the password data
model, the attacker-dictionary builder, the crack-probability model, the
trial loop and the aggregation, with theorems checking the repository's
specification against the code.

Python floats are modelled as exact real numbers; Python `random.random()`
draws are modelled as an explicit oracle `u : Nat -> Real` consumed one
value per trial row, in row order.
-/

open Real

/-- A generated password record: `{"id": i, "password": pw, "strength": strength}`. -/
structure PwRecord where
  id : Nat
  password : String
  strength : String
deriving Repr, DecidableEq

/-- The `param` dictionary passed to `crack_probability` / `base_hash_time_ms`:
at most one of the keys `iterations`, `cost`, `mem_kb` is present. -/
structure Param where
  iterations : Option Nat
  cost : Option Nat
  mem_kb : Option Nat
deriving Repr, DecidableEq

/-- The empty `param` dictionary `\x7b\x7d` used for the fast digests. -/
def emptyParam : Param := ⟨none, none, none⟩

/-- The list `["MD5","SHA1","SHA256"]` of fast unsalted digests tested by
`algo in ["MD5","SHA1","SHA256"]` in the source. -/
def fastAlgos : List String := ["MD5", "SHA1", "SHA256"]

/-- `simplified = "".join(ch for ch in pwstr.lower() if ch.isalnum())`:
lowercase the password, then keep only alphanumeric characters. -/
def simplified (s : String) : String :=
  String.mk ((s.data.map Char.toLower).filter Char.isAlphanum)

/-- `in_dict = (pwstr in attacker_dict) or (simplified in attacker_dict)`,
with the attacker dictionary (a Python set) modelled by a list of its
elements. -/
def in_attacker_dict (pw : PwRecord) (attacker_dict : List String) : Bool :=
  attacker_dict.contains pw.password || attacker_dict.contains (simplified pw.password)

/-- `max(0, min(1, base))`: the final clamp of `crack_probability`. -/
noncomputable def clamp01 (x : ℝ) : ℝ := max 0 (min 1 x)

/-- The salting damping factor of line `base *= 0.4 if algo in ["MD5","SHA1","SHA256"] else 0.7`. -/
noncomputable def salt_factor (algo : String) : ℝ :=
  if fastAlgos.contains algo then 0.4 else 0.7

/-- The `base` variable of `crack_probability`: `none` when the Python
function leaves it unassigned (dictionary hit with an algorithm outside
the six names), in which case the function raises instead of returning. -/
noncomputable def crack_base (pw : PwRecord) (algo : String) (param : Param)
    (attacker_dict : List String) : Option ℝ :=
  let strength := pw.strength
  if in_attacker_dict pw attacker_dict then
    if fastAlgos.contains algo then
      some (if strength = "weak" then 0.95 else if strength = "medium" then 0.7 else 0.2)
    else if algo = "PBKDF2" then
      let it := param.iterations.getD 1000
      some (0.9 * Real.exp (-0.00004 * ((it : ℝ) - 1000)))
    else if algo = "bcrypt" then
      let cost := param.cost.getD 10
      some (0.9 * (0.85 : ℝ) ^ ((cost : ℤ) - 8))
    else if algo = "Argon2" then
      let mem := param.mem_kb.getD 32
      some (0.8 * (0.9 : ℝ) ^ Real.logb 2 ((mem : ℝ) + 1))
    else none
  else
    some (if strength = "weak" then 0.05 else if strength = "medium" then 0.02 else 0.001)

/-- The crack-probability model `crack_probability(pw, algo, param, salted, attacker_dict)`:
the `base` value, damped by `salt_factor` when salted, clamped to the unit
interval. -/
noncomputable def crack_probability (pw : PwRecord) (algo : String) (param : Param)
    (salted : Bool) (attacker_dict : List String) : Option ℝ :=
  (crack_base pw algo param attacker_dict).map fun b =>
    clamp01 (if salted then b * salt_factor algo else b)

/-- `base_hash_time_ms(algo, param)`: the simulated single-hash time model. -/
noncomputable def base_hash_time_ms (algo : String) (param : Param) : ℝ :=
  if algo = "MD5" then 0.05
  else if algo = "SHA1" then 0.08
  else if algo = "SHA256" then 0.12
  else if algo = "PBKDF2" then 0.00002 * (param.iterations.getD 1000 : ℝ)
  else if algo = "bcrypt" then (2 : ℝ) ^ ((param.cost.getD 10 : ℤ) - 6) * 1.2
  else if algo = "Argon2" then 0.5 * Real.logb 2 ((param.mem_kb.getD 32 : ℝ) + 1)
  else 1.0

section
open Classical

/-- The trial's stored boolean `prob > random.random()`, with `u` the drawn
uniform value. -/
noncomputable def cracked_draw (prob u : ℝ) : Bool := decide (prob > u)

/-- The weak-password base list of `generate_passwords`. -/
def weak_bases : List String :=
  ["password", "123456", "qwerty", "letmein", "welcome", "admin", "iloveyou",
   "sunshine", "monkey", "dragon"]

/-- The medium-password base word list of `generate_passwords`. -/
def medium_bases : List String :=
  ["football", "baseball", "computer", "coffee", "iloveu", "flower", "purple"]

/-- The first medium-password suffix list. -/
def medium_mids : List String := ["2020", "!", "$", "123", "_"]

/-- The second medium-password suffix list. -/
def medium_tails : List String := ["1", "99", "x"]

/-- The strong-password alphabet. -/
def strong_alphabet : List Char :=
  "abcdefghijklmnopqrstuvwxyzABCDEFGHIJKLMNOPQRSTUVWXYZ0123456789!@#$%^&*()-_=+".data

/-- `generate_passwords(n)`: for each `i < n` draw `r = random.random()`;
`r < 0.5` gives a weak base plus numeric suffix, `r < 0.85` a medium base
plus two suffixes, otherwise a random 12-20 character strong string. The
random source is the oracle pair `rand` (the branch draw for record `i`)
and `pick` (the index choices for record `i`: `choice` picks by index,
`randint(0,999)` is `pick i 1 % 1000`, `randint(12,20)` is `12 + pick i 0 % 9`). -/
noncomputable def generate_passwords (rand : Nat → ℝ) (pick : Nat → Nat → Nat)
    (n : Nat) : List PwRecord :=
  (List.range n).map fun i =>
    let r := rand i
    if r < 0.5 then
      { id := i,
        password := weak_bases.getD (pick i 0 % weak_bases.length) "" ++ toString (pick i 1 % 1000),
        strength := "weak" }
    else if r < 0.85 then
      { id := i,
        password := medium_bases.getD (pick i 0 % medium_bases.length) ""
          ++ medium_mids.getD (pick i 1 % medium_mids.length) ""
          ++ medium_tails.getD (pick i 2 % medium_tails.length) "",
        strength := "medium" }
    else
      { id := i,
        password := String.mk ((List.range (12 + pick i 0 % 9)).map fun j =>
          strong_alphabet.getD (pick i (j + 1) % strong_alphabet.length) ' '),
        strength := "strong" }

end

/-- The 17 seed words put into the attacker-dictionary set. -/
def dict_seed_words : List String :=
  ["password", "123456", "qwerty", "letmein", "welcome", "admin", "iloveyou",
   "sunshine", "monkey", "dragon", "football", "baseball", "computer", "coffee",
   "flower", "purple", "iloveu"]

/-- The seed words together with the suffixed variants `w+"123"`,
`w+"2020"`, `w+"!"` added for each seed word `w`. -/
def dict_pre : List String :=
  dict_seed_words ++ dict_seed_words.flatMap (fun w => [w ++ "123", w ++ "2020", w ++ "!"])

/-- The 5000 filler words `word0 .. word4999`. -/
def dict_fillers : List String :=
  (List.range 5000).map (fun i => "word" ++ toString i)

/-- The elements of the attacker-dictionary set `dict_words`, in insertion
order: the seed words, then the suffixed variants, then the fillers. The
Python object is a `set`, so the program observes these elements in an
unspecified iteration order; `dict_list = list(dict_words)` is some
enumeration of this set. -/
def dict_words_elems : List String := dict_pre ++ dict_fillers

/-- `small_dict = set(dict_list[:500])`, as a function of the enumeration
order `dict_list` of the set. -/
def small_dict_of (dict_list : List String) : List String := dict_list.take 500

/-- `large_dict = set(dict_list[:4000])`. -/
def large_dict_of (dict_list : List String) : List String := dict_list.take 4000

/-- One iteration point of the trial loop: fixed (algorithm, param label,
param dict, salted, dictionary name, dictionary contents), under which the
loop iterates over all passwords. -/
structure Block where
  algorithm : String
  paramLabel : String
  param : Param
  salted : Bool
  dictName : String
  dictSet : List String

/-- `[("small", small_dict), ("large", large_dict)]`. -/
def dictPairs (small_d large_d : List String) : List (String × List String) :=
  [("small", small_d), ("large", large_d)]

/-- The `else` branch of the trial loop for one fast algorithm:
`for salted in [False,True]: for (dictname,dictset) in ...`. -/
def fastBlocks (alg : String) (small_d large_d : List String) : List Block :=
  [false, true].flatMap fun s =>
    (dictPairs small_d large_d).map fun dp =>
      { algorithm := alg, paramLabel := "", param := emptyParam,
        salted := s, dictName := dp.1, dictSet := dp.2 }

/-- The PBKDF2 branch: `for it in [1000,10000,50000]: ...`, param label `iters=it`. -/
def pbkdf2Blocks (small_d large_d : List String) : List Block :=
  [1000, 10000, 50000].flatMap fun it =>
    [false, true].flatMap fun s =>
      (dictPairs small_d large_d).map fun dp =>
        { algorithm := "PBKDF2", paramLabel := "iters=" ++ toString it,
          param := ⟨some it, none, none⟩, salted := s, dictName := dp.1, dictSet := dp.2 }

/-- The bcrypt branch: `for cost in [8,10,12]: ...`, param label `cost=c`. -/
def bcryptBlocks (small_d large_d : List String) : List Block :=
  [8, 10, 12].flatMap fun c =>
    [false, true].flatMap fun s =>
      (dictPairs small_d large_d).map fun dp =>
        { algorithm := "bcrypt", paramLabel := "cost=" ++ toString c,
          param := ⟨none, some c, none⟩, salted := s, dictName := dp.1, dictSet := dp.2 }

/-- The Argon2 branch: `for mem in [32,256,1024]: ...`, param label `mem=mKB`. -/
def argon2Blocks (small_d large_d : List String) : List Block :=
  [32, 256, 1024].flatMap fun m =>
    [false, true].flatMap fun s =>
      (dictPairs small_d large_d).map fun dp =>
        { algorithm := "Argon2", paramLabel := "mem=" ++ toString m ++ "KB",
          param := ⟨none, none, some m⟩, salted := s, dictName := dp.1, dictSet := dp.2 }

/-- All iteration points of `for alg in algorithms`, in source order:
MD5, SHA1, SHA256 (the `else` branch), then PBKDF2, bcrypt, Argon2. -/
def pipelineBlocks (small_d large_d : List String) : List Block :=
  fastBlocks "MD5" small_d large_d ++ fastBlocks "SHA1" small_d large_d
    ++ fastBlocks "SHA256" small_d large_d ++ pbkdf2Blocks small_d large_d
    ++ bcryptBlocks small_d large_d ++ argon2Blocks small_d large_d

/-- A trial row before the random draw: the appended fields
`[name, param, salted, dictname, strength, t]` together with the computed
probability `prob` fed to the draw. -/
structure PreRow where
  algorithm : String
  param : String
  salted : Bool
  dict : String
  strength : String
  hash_time_ms : ℝ
  prob : ℝ

/-- A stored trial row of `results`: `[name, param, salted, dictname,
strength, t, prob > random.random()]`. -/
structure TrialRow where
  algorithm : String
  param : String
  salted : Bool
  dict : String
  strength : String
  hash_time_ms : ℝ
  cracked : Bool

/-- One trial row of the inner `for _, pw in pw_df.iterrows()` loop. For
the six pipeline algorithms `crack_probability` always returns a value;
`getD 0` extracts it. -/
noncomputable def preRowOf (b : Block) (pw : PwRecord) : PreRow :=
  { algorithm := b.algorithm, param := b.paramLabel, salted := b.salted,
    dict := b.dictName, strength := pw.strength,
    hash_time_ms := base_hash_time_ms b.algorithm b.param,
    prob := (crack_probability pw b.algorithm b.param b.salted b.dictSet).getD 0 }

/-- The inner password loop under one block. -/
noncomputable def blockRows (pws : List PwRecord) (b : Block) : List PreRow :=
  pws.map (preRowOf b)

/-- All trial rows before the draws, in source iteration order. -/
noncomputable def allPreRows (pws : List PwRecord) (small_d large_d : List String) : List PreRow :=
  (pipelineBlocks small_d large_d).flatMap (blockRows pws)

/-- The full `rows` table: the `i`-th row consumes the `i`-th uniform draw
`u i` for its `prob > random.random()` comparison. -/
noncomputable def mkTrialRows (pws : List PwRecord) (small_d large_d : List String)
    (u : Nat → ℝ) : List TrialRow :=
  (allPreRows pws small_d large_d).enum.map fun ir =>
    { algorithm := ir.2.algorithm, param := ir.2.param, salted := ir.2.salted,
      dict := ir.2.dict, strength := ir.2.strength, hash_time_ms := ir.2.hash_time_ms,
      cracked := cracked_draw ir.2.prob (u ir.1) }

/-- The groupby key `(algorithm, param, salted, dict)`. -/
abbrev GroupKey := String × String × Bool × String

/-- The key of one trial row. -/
def rowKey (r : TrialRow) : GroupKey := (r.algorithm, r.param, r.salted, r.dict)

/-- The key of one block; rows generated under a block all carry this key. -/
def blockKey (b : Block) : GroupKey := (b.algorithm, b.paramLabel, b.salted, b.dictName)

/-- The rows of one group of `df.groupby(["algorithm","param","salted","dict"])`. -/
def groupRows (l : List TrialRow) (k : GroupKey) : List TrialRow :=
  l.filter fun r => rowKey r == k

/-- `total=("cracked","count")`: the group size. -/
def summary_total (l : List TrialRow) (k : GroupKey) : Nat := (groupRows l k).length

/-- `cracked_sum=("cracked","sum")`: booleans sum as 0/1, so this is the
number of cracked rows in the group. -/
def summary_cracked_sum (l : List TrialRow) (k : GroupKey) : Nat :=
  ((groupRows l k).filter fun r => r.cracked).length

/-- `cracked_rate=("cracked","mean")`: the mean of the 0/1 cracked column. -/
noncomputable def summary_cracked_rate (l : List TrialRow) (k : GroupKey) : ℝ :=
  (((groupRows l k).map fun r => if r.cracked then (1 : ℝ) else 0).sum)
    / ((groupRows l k).length : ℝ)

/-- `avg_hash_time_ms=("hash_time_ms","mean")`. -/
noncomputable def summary_avg_hash_time (l : List TrialRow) (k : GroupKey) : ℝ :=
  ((groupRows l k).map TrialRow.hash_time_ms).sum / ((groupRows l k).length : ℝ)

/-- One file written by the script, with its column list when tabular. -/
structure Artifact where
  filename : String
  columns : Option (List String)
deriving Repr, DecidableEq

/-- The column list of the raw per-trial table `results` promised by the
module docstring (`results.csv`). -/
def raw_trial_columns : List String :=
  ["algorithm", "param", "salted", "dict", "strength", "hash_time_ms", "cracked"]

/-- The files the script actually writes, in program order:
`pw_df.to_csv(OUT/"passwords.csv")`, the `dictionary.txt` loop,
`summary.to_csv(OUT/"summary.csv")`, and the two `savefig` calls. -/
def written_artifacts : List Artifact :=
  [ { filename := "passwords.csv", columns := some ["id", "password", "strength"] },
    { filename := "dictionary.txt", columns := none },
    { filename := "summary.csv",
      columns := some ["algorithm", "param", "salted", "dict", "total",
                       "cracked_sum", "cracked_rate", "avg_hash_time_ms"] },
    { filename := "hash_time_by_algo.png", columns := none },
    { filename := "cracked_rate_by_algo.png", columns := none } ]

/-! ## Helper lemmas -/

theorem clamp01_nonneg (x : ℝ) : 0 ≤ clamp01 x := le_max_left 0 _

theorem clamp01_le_one (x : ℝ) : clamp01 x ≤ 1 := max_le (by norm_num) (min_le_left 1 x)

theorem clamp01_mono {a b : ℝ} (h : a ≤ b) : clamp01 a ≤ clamp01 b :=
  max_le_max le_rfl (min_le_min le_rfl h)

theorem clamp01_of_le_one {x : ℝ} (h0 : 0 ≤ x) (h1 : x ≤ 1) : clamp01 x = x := by
  rw [clamp01, min_eq_right h1, max_eq_right h0]

theorem clamp01_of_one_le {x : ℝ} (h : 1 ≤ x) : clamp01 x = 1 := by
  rw [clamp01, min_eq_left h, max_eq_right (by norm_num : (0:ℝ) ≤ 1)]

theorem clamp01_pos {x : ℝ} (h : 0 < x) : 0 < clamp01 x :=
  lt_max_iff.mpr (Or.inr (lt_min one_pos h))

/-- Whatever branch assigns it, the `base` value is strictly positive. -/
theorem crack_base_pos {pw : PwRecord} {algo : String} {param : Param} {d : List String}
    {b : ℝ} (h : crack_base pw algo param d = some b) : 0 < b := by
  unfold crack_base at h
  split_ifs at h <;> (rw [Option.some.injEq] at h; subst h) <;> positivity

/-- Evaluation: fast digest, weak password, dictionary hit. -/
theorem crack_probability_fast_weak {pw : PwRecord} {algo : String} (param : Param) (s : Bool)
    {d : List String} (halgo : algo ∈ fastAlgos) (hs : pw.strength = "weak")
    (hd : in_attacker_dict pw d = true) :
    crack_probability pw algo param s d = some (clamp01 (if s then 0.95 * 0.4 else 0.95)) := by
  simp [crack_probability, crack_base, hd, halgo, hs, salt_factor]

/-- Evaluation: PBKDF2, dictionary hit. -/
theorem crack_probability_pbkdf2 {pw : PwRecord} (param : Param) (s : Bool)
    {d : List String} (hd : in_attacker_dict pw d = true) :
    crack_probability pw "PBKDF2" param s d =
      some (clamp01 (if s then
        (0.9 * Real.exp (-0.00004 * ((param.iterations.getD 1000 : ℝ) - 1000))) * 0.7
        else 0.9 * Real.exp (-0.00004 * ((param.iterations.getD 1000 : ℝ) - 1000)))) := by
  simp [crack_probability, crack_base, hd, fastAlgos, salt_factor]

/-- Evaluation: bcrypt, dictionary hit. -/
theorem crack_probability_bcrypt {pw : PwRecord} (param : Param) (s : Bool)
    {d : List String} (hd : in_attacker_dict pw d = true) :
    crack_probability pw "bcrypt" param s d =
      some (clamp01 (if s then (0.9 * (0.85 : ℝ) ^ ((param.cost.getD 10 : ℤ) - 8)) * 0.7
        else 0.9 * (0.85 : ℝ) ^ ((param.cost.getD 10 : ℤ) - 8))) := by
  simp [crack_probability, crack_base, hd, fastAlgos, salt_factor]

/-- Evaluation: Argon2, dictionary hit. -/
theorem crack_probability_argon2 {pw : PwRecord} (param : Param) (s : Bool)
    {d : List String} (hd : in_attacker_dict pw d = true) :
    crack_probability pw "Argon2" param s d =
      some (clamp01 (if s then (0.8 * (0.9 : ℝ) ^ Real.logb 2 ((param.mem_kb.getD 32 : ℝ) + 1)) * 0.7
        else 0.8 * (0.9 : ℝ) ^ Real.logb 2 ((param.mem_kb.getD 32 : ℝ) + 1))) := by
  simp [crack_probability, crack_base, hd, fastAlgos, salt_factor]

/-- Evaluation: no dictionary hit, any algorithm. -/
theorem crack_probability_not_in_dict {pw : PwRecord} {algo : String} (param : Param) (s : Bool)
    {d : List String} (hd : in_attacker_dict pw d = false) :
    crack_probability pw algo param s d =
      some (clamp01 (if s then
        (if pw.strength = "weak" then 0.05 else if pw.strength = "medium" then 0.02 else 0.001)
          * salt_factor algo
        else (if pw.strength = "weak" then 0.05 else if pw.strength = "medium" then 0.02
          else 0.001))) := by
  simp [crack_probability, crack_base, hd]

/-- A list with no duplicates counts any of its members exactly once. -/
theorem countP_eq_one_of_nodup_mem {α : Type} [BEq α] [LawfulBEq α] {l : List α}
    (hl : l.Nodup) {a : α} (ha : a ∈ l) : l.countP (fun x => x == a) = 1 := by
  induction l with
  | nil => cases ha
  | cons b t ih =>
    rw [List.countP_cons]
    rcases List.mem_cons.mp ha with rfl | hat
    · have hnot : a ∉ t := (List.nodup_cons.mp hl).1
      have h0 : t.countP (fun x => x == a) = 0 :=
        List.countP_eq_zero.mpr (fun x hx => by
          simp only [beq_iff_eq]
          intro he
          exact hnot (he ▸ hx))
      simp [h0]
    · have hba : ¬((b == a) = true) := by
        simp only [beq_iff_eq]
        rintro rfl
        exact (List.nodup_cons.mp hl).1 hat
      rw [ih (List.nodup_cons.mp hl).2 hat]
      simp [hba]

/-- Counting rows of the final table by a predicate that ignores the
`cracked` bit equals counting the pre-draw rows. -/
theorem countP_mkTrialRows (pws : List PwRecord) (small_d large_d : List String)
    (u : Nat → ℝ) (p : TrialRow → Bool) (q : PreRow → Bool)
    (hpq : ∀ (r : PreRow) (c : Bool),
      p ⟨r.algorithm, r.param, r.salted, r.dict, r.strength, r.hash_time_ms, c⟩ = q r) :
    (mkTrialRows pws small_d large_d u).countP p = (allPreRows pws small_d large_d).countP q := by
  rw [mkTrialRows, List.countP_map]
  conv_rhs => rw [show allPreRows pws small_d large_d
    = (allPreRows pws small_d large_d).enum.map Prod.snd from (List.enum_map_snd _).symm]
  rw [List.countP_map]
  apply List.countP_congr
  intro ir _
  rw [Function.comp_apply, Function.comp_apply, hpq ir.2 (cracked_draw ir.2.prob (u ir.1))]

theorem countP_const_list {α : Type} (c : Bool) (l : List α) :
    l.countP (fun _ => c) = if c then l.length else 0 := by
  cases c <;> simp

theorem sum_map_ite {α : Type} (L : List α) (g : α → Bool) (n : Nat) :
    (L.map fun a => if g a then n else 0).sum = n * L.countP g := by
  induction L with
  | nil => simp
  | cons a t ih =>
    cases hg : g a
    · simp [List.countP_cons, hg, ih]
    · simp [List.countP_cons, hg, ih]
      ring

/-- Counting pre-draw rows by a predicate determined by the enclosing block
reduces to counting blocks, scaled by the password count. -/
theorem countP_allPreRows (pws : List PwRecord) (small_d large_d : List String)
    (q : PreRow → Bool) (qB : Block → Bool)
    (hq : ∀ b pw, q (preRowOf b pw) = qB b) :
    (allPreRows pws small_d large_d).countP q
      = pws.length * (pipelineBlocks small_d large_d).countP qB := by
  rw [allPreRows, List.countP_flatMap]
  have hblock : ∀ b : Block, (blockRows pws b).countP q = if qB b then pws.length else 0 := by
    intro b
    rw [blockRows, List.countP_map]
    have he : (q ∘ preRowOf b) = fun _ => qB b := by
      funext pw
      exact hq b pw
    rw [he, countP_const_list]
  calc ((pipelineBlocks small_d large_d).map fun b => (blockRows pws b).countP q).sum
      = ((pipelineBlocks small_d large_d).map fun b => if qB b then pws.length else 0).sum := by
        congr 1
        exact List.map_congr_left fun b _ => hblock b
    _ = pws.length * (pipelineBlocks small_d large_d).countP qB := sum_map_ite _ _ _

/-- The 48 group keys of the pipeline are pairwise distinct. -/
theorem pipelineKeys_nodup : ((pipelineBlocks [] []).map blockKey).Nodup := by decide

/-- Each group that the pipeline produces holds exactly one row per password. -/
theorem summary_total_eq (pws : List PwRecord) (small_d large_d : List String) (u : Nat → ℝ)
    (k : GroupKey) (hk : k ∈ (pipelineBlocks small_d large_d).map blockKey) :
    summary_total (mkTrialRows pws small_d large_d u) k = pws.length := by
  rw [summary_total, groupRows, ← List.countP_eq_length_filter]
  rw [countP_mkTrialRows pws small_d large_d u _
    (fun r => (r.algorithm, r.param, r.salted, r.dict) == k) (fun r c => rfl)]
  rw [countP_allPreRows pws small_d large_d _ (fun b => blockKey b == k) (fun b pw => rfl)]
  have h1 : (pipelineBlocks small_d large_d).countP (fun b => blockKey b == k)
      = ((pipelineBlocks small_d large_d).map blockKey).countP (fun x => x == k) := by
    rw [List.countP_map]
    rfl
  have hk2 : k ∈ (pipelineBlocks [] []).map blockKey := hk
  rw [h1, show (pipelineBlocks small_d large_d).map blockKey
      = (pipelineBlocks [] []).map blockKey from rfl,
    countP_eq_one_of_nodup_mem pipelineKeys_nodup hk2, Nat.mul_one]

/-- Row count of one top-level algorithm, as blocks-with-that-name times
passwords. -/
theorem algo_row_count (pws : List PwRecord) (small_d large_d : List String) (u : Nat → ℝ)
    (name : String) :
    ((mkTrialRows pws small_d large_d u).filter fun r => r.algorithm == name).length
      = pws.length * ((pipelineBlocks [] []).map Block.algorithm).countP (fun a => a == name) := by
  rw [← List.countP_eq_length_filter]
  rw [countP_mkTrialRows pws small_d large_d u _ (fun r => r.algorithm == name) (fun r c => rfl)]
  rw [countP_allPreRows pws small_d large_d _ (fun b => b.algorithm == name) (fun b pw => rfl)]
  have h2 : (pipelineBlocks small_d large_d).countP (fun b => b.algorithm == name)
      = ((pipelineBlocks small_d large_d).map Block.algorithm).countP (fun a => a == name) := by
    rw [List.countP_map]
    rfl
  rw [h2]
  rfl

/-- The 0/1 indicator sum of the cracked column is its cracked count. -/
theorem sum_indicator_eq_count (m : List TrialRow) :
    ((m.map fun r => if r.cracked then (1 : ℝ) else 0).sum)
      = (((m.filter fun r => r.cracked).length : ℕ) : ℝ) := by
  induction m with
  | nil => simp
  | cons a t ih =>
    cases ha : a.cracked
    · simp [List.filter_cons, ha, ih]
    · simp [List.filter_cons, ha, ih]
      ring

/-- `"password"` is not among the first 500 entries of the filler-first
enumeration of the dictionary set. -/
theorem pw_not_in_fillers_take : "password" ∉ small_dict_of (dict_fillers ++ dict_pre) := by
  intro h
  rw [small_dict_of, List.take_append_of_le_length (by simp [dict_fillers])] at h
  have hmem : "password" ∈ dict_fillers := List.take_subset _ _ h
  rw [dict_fillers] at hmem
  obtain ⟨i, hi, hw⟩ := List.mem_map.mp hmem
  have hdata := congrArg String.data hw
  simp [String.data_append] at hdata

/-! ## Claim theorems -/

/-- C1: for a weak password record matched by the attacker dictionary,
`crack_probability` with algorithm MD5 and `salted=False` returns exactly
0.95, and the stored `cracked` boolean is true iff the uniform draw is
below that probability: a draw below 0.95 yields `cracked=True`, a draw
above 0.95 yields `cracked=False`. -/
theorem C1_md5_weak_trial (pw : PwRecord) (d : List String) (param : Param)
    (hs : pw.strength = "weak") (hd : in_attacker_dict pw d = true) :
    crack_probability pw "MD5" param false d = some 0.95
    ∧ (∀ u : ℝ, u < 0.95 → cracked_draw 0.95 u = true)
    ∧ (∀ u : ℝ, 0.95 < u → cracked_draw 0.95 u = false) := by
  refine ⟨?_, fun u hu => ?_, fun u hu => ?_⟩
  · rw [crack_probability_fast_weak param false (by decide) hs hd]
    simp only [Bool.false_eq_true, if_false]
    rw [clamp01_of_le_one (by norm_num) (by norm_num)]
  · simp only [cracked_draw, decide_eq_true_eq]
    exact hu
  · simp only [cracked_draw, decide_eq_false_iff_not]
    exact not_lt.mpr hu.le

/-- Witness for C1 at the spec's concrete scenario: password record
`(0, "password0", weak)`, dictionary containing `"password0"`, draws 0.5
and 0.96. -/
theorem C1_md5_weak_trial_witness :
    crack_probability ⟨0, "password0", "weak"⟩ "MD5" emptyParam false ["password0"] = some 0.95
    ∧ cracked_draw 0.95 0.5 = true ∧ cracked_draw 0.95 0.96 = false :=
  ⟨(C1_md5_weak_trial ⟨0, "password0", "weak"⟩ ["password0"] emptyParam rfl (by decide)).1,
   (C1_md5_weak_trial ⟨0, "password0", "weak"⟩ ["password0"] emptyParam rfl (by decide)).2.1 0.5
     (by norm_num),
   (C1_md5_weak_trial ⟨0, "password0", "weak"⟩ ["password0"] emptyParam rfl (by decide)).2.2 0.96
     (by norm_num)⟩

/-- C2: for a dictionary-matched password, with password, salting flag and
dictionary fixed, raising the PBKDF2 iteration count, the bcrypt cost
factor, or the Argon2 memory size monotonically decreases the value
returned by `crack_probability`. -/
theorem C2_param_monotone (pw : PwRecord) (d : List String) (salted : Bool)
    (hd : in_attacker_dict pw d = true) :
    (∀ it1 it2 : Nat, it1 ≤ it2 → ∀ p1 p2 : ℝ,
        crack_probability pw "PBKDF2" ⟨some it1, none, none⟩ salted d = some p1 →
        crack_probability pw "PBKDF2" ⟨some it2, none, none⟩ salted d = some p2 → p2 ≤ p1)
    ∧ (∀ c1 c2 : Nat, c1 ≤ c2 → ∀ p1 p2 : ℝ,
        crack_probability pw "bcrypt" ⟨none, some c1, none⟩ salted d = some p1 →
        crack_probability pw "bcrypt" ⟨none, some c2, none⟩ salted d = some p2 → p2 ≤ p1)
    ∧ (∀ m1 m2 : Nat, m1 ≤ m2 → ∀ p1 p2 : ℝ,
        crack_probability pw "Argon2" ⟨none, none, some m1⟩ salted d = some p1 →
        crack_probability pw "Argon2" ⟨none, none, some m2⟩ salted d = some p2 → p2 ≤ p1) := by
  refine ⟨fun it1 it2 hle p1 p2 h1 h2 => ?_, fun c1 c2 hle p1 p2 h1 h2 => ?_,
    fun m1 m2 hle p1 p2 h1 h2 => ?_⟩
  · rw [crack_probability_pbkdf2 _ _ hd, Option.some_inj] at h1 h2
    subst h1 h2
    have hcast : (it1 : ℝ) ≤ (it2 : ℝ) := Nat.cast_le.mpr hle
    have hexp : Real.exp (-0.00004 * ((it2 : ℝ) - 1000))
        ≤ Real.exp (-0.00004 * ((it1 : ℝ) - 1000)) := Real.exp_le_exp.mpr (by linarith)
    apply clamp01_mono
    simp only [Option.getD_some]
    split_ifs <;> nlinarith [hexp]
  · rw [crack_probability_bcrypt _ _ hd, Option.some_inj] at h1 h2
    subst h1 h2
    have hz : ((c1 : ℤ) - 8) ≤ ((c2 : ℤ) - 8) := by omega
    have hpow : (0.85 : ℝ) ^ ((c2 : ℤ) - 8) ≤ (0.85 : ℝ) ^ ((c1 : ℤ) - 8) :=
      zpow_le_zpow_right_of_le_one₀ (by norm_num) (by norm_num) hz
    apply clamp01_mono
    simp only [Option.getD_some]
    split_ifs <;> nlinarith [hpow]
  · rw [crack_probability_argon2 _ _ hd, Option.some_inj] at h1 h2
    subst h1 h2
    have hlog : Real.logb 2 ((m1 : ℝ) + 1) ≤ Real.logb 2 ((m2 : ℝ) + 1) :=
      Real.logb_le_logb_of_le (by norm_num) (by positivity)
        (by exact_mod_cast add_le_add_right (Nat.cast_le.mpr hle) 1)
    have hpow : (0.9 : ℝ) ^ Real.logb 2 ((m2 : ℝ) + 1) ≤ (0.9 : ℝ) ^ Real.logb 2 ((m1 : ℝ) + 1) :=
      Real.rpow_le_rpow_of_exponent_ge (by norm_num) (by norm_num) hlog
    apply clamp01_mono
    simp only [Option.getD_some]
    split_ifs <;> nlinarith [hpow]

/-- Witness for C2: the in-pipeline parameter steps 1000 to 10000
iterations, cost 8 to 10, and 32KB to 256KB on a dictionary-matched weak
password, unsalted. -/
theorem C2_param_monotone_witness : ∃ p1 p2 p3 p4 p5 p6 : ℝ,
    crack_probability ⟨0, "password", "weak"⟩ "PBKDF2" ⟨some 1000, none, none⟩ false ["password"]
      = some p1
    ∧ crack_probability ⟨0, "password", "weak"⟩ "PBKDF2" ⟨some 10000, none, none⟩ false
        ["password"] = some p2
    ∧ p2 ≤ p1
    ∧ crack_probability ⟨0, "password", "weak"⟩ "bcrypt" ⟨none, some 8, none⟩ false ["password"]
      = some p3
    ∧ crack_probability ⟨0, "password", "weak"⟩ "bcrypt" ⟨none, some 10, none⟩ false ["password"]
      = some p4
    ∧ p4 ≤ p3
    ∧ crack_probability ⟨0, "password", "weak"⟩ "Argon2" ⟨none, none, some 32⟩ false ["password"]
      = some p5
    ∧ crack_probability ⟨0, "password", "weak"⟩ "Argon2" ⟨none, none, some 256⟩ false ["password"]
      = some p6
    ∧ p6 ≤ p5 := by
  have hd : in_attacker_dict ⟨0, "password", "weak"⟩ ["password"] = true := by decide
  have h1 := @crack_probability_pbkdf2 ⟨0, "password", "weak"⟩ ⟨some 1000, none, none⟩ false
    ["password"] hd
  have h2 := @crack_probability_pbkdf2 ⟨0, "password", "weak"⟩ ⟨some 10000, none, none⟩ false
    ["password"] hd
  have h3 := @crack_probability_bcrypt ⟨0, "password", "weak"⟩ ⟨none, some 8, none⟩ false
    ["password"] hd
  have h4 := @crack_probability_bcrypt ⟨0, "password", "weak"⟩ ⟨none, some 10, none⟩ false
    ["password"] hd
  have h5 := @crack_probability_argon2 ⟨0, "password", "weak"⟩ ⟨none, none, some 32⟩ false
    ["password"] hd
  have h6 := @crack_probability_argon2 ⟨0, "password", "weak"⟩ ⟨none, none, some 256⟩ false
    ["password"] hd
  exact ⟨_, _, _, _, _, _, h1, h2,
    (C2_param_monotone ⟨0, "password", "weak"⟩ ["password"] false hd).1 1000 10000
      (by norm_num) _ _ h1 h2,
    h3, h4,
    (C2_param_monotone ⟨0, "password", "weak"⟩ ["password"] false hd).2.1 8 10
      (by norm_num) _ _ h3 h4,
    h5, h6,
    (C2_param_monotone ⟨0, "password", "weak"⟩ ["password"] false hd).2.2 32 256
      (by norm_num) _ _ h5 h6⟩

/-- C3 (amended): for every input on which `crack_probability` is defined,
the salted probability is at most the unsalted one; the unsalted
probability is never 0, and equality occurs exactly when both results are
clamped to 1. The fast-digest damping factor 0.4 is smaller than the
slow-scheme factor 0.7. -/
theorem C3_salting_amended :
    (∀ (pw : PwRecord) (algo : String) (param : Param) (d : List String) (ps pu : ℝ),
        crack_probability pw algo param true d = some ps →
        crack_probability pw algo param false d = some pu →
        ps ≤ pu ∧ 0 < pu ∧ (ps = pu → ps = 1))
    ∧ (∀ f ∈ fastAlgos, ∀ sl ∈ ["PBKDF2", "bcrypt", "Argon2"],
        salt_factor f < salt_factor sl) := by
  constructor
  · intro pw algo param d ps pu hs hu
    rw [crack_probability, Option.map_eq_some'] at hs hu
    obtain ⟨a, ha, rfl⟩ := hs
    obtain ⟨b, hb, rfl⟩ := hu
    rw [ha] at hb
    obtain rfl : a = b := Option.some_inj.mp hb
    have b0 : 0 < a := crack_base_pos ha
    have sf0 : 0 < salt_factor algo := by
      rw [salt_factor]
      split_ifs <;> norm_num
    have sf1 : salt_factor algo < 1 := by
      rw [salt_factor]
      split_ifs <;> norm_num
    simp only [if_true, Bool.false_eq_true, if_false]
    refine ⟨clamp01_mono (mul_le_of_le_one_right b0.le sf1.le), clamp01_pos b0,
      fun heq => ?_⟩
    rcases le_or_lt a 1 with hle | hgt
    · exfalso
      have hlt : a * salt_factor algo < a := mul_lt_of_lt_one_right b0 sf1
      rw [clamp01_of_le_one b0.le hle,
          clamp01_of_le_one (by positivity) (le_trans hlt.le hle)] at heq
      exact absurd heq hlt.ne
    · rwa [clamp01_of_one_le hgt.le] at heq
  · intro f hf sl hsl
    fin_cases hf <;> fin_cases hsl <;> · show (0.4 : ℝ) < 0.7; norm_num

/-- Counterexample to C3 as stated: for bcrypt with cost 0 on a
dictionary-matched weak password, the salted and unsalted probabilities
are both clamped to 1, so the salted value is not strictly smaller even
though the unsalted value is not 0. -/
theorem C3_salting_counterexample :
    crack_probability ⟨0, "password", "weak"⟩ "bcrypt" ⟨none, some 0, none⟩ true ["password"]
      = some 1
    ∧ crack_probability ⟨0, "password", "weak"⟩ "bcrypt" ⟨none, some 0, none⟩ false ["password"]
      = some 1
    ∧ ¬ ((1 : ℝ) < 1) ∧ (1 : ℝ) ≠ 0 := by
  have hd : in_attacker_dict ⟨0, "password", "weak"⟩ ["password"] = true := by decide
  have hb : (1 : ℝ) ≤ 0.9 * (0.85 : ℝ) ^ (((0 : Nat) : ℤ) - 8) := by
    norm_num [zpow_neg]
  refine ⟨?_, ?_, by norm_num, by norm_num⟩
  · rw [crack_probability_bcrypt _ _ hd]
    simp only [if_true, Option.getD_some]
    rw [clamp01_of_one_le (by nlinarith [hb])]
  · rw [crack_probability_bcrypt _ _ hd]
    simp only [Bool.false_eq_true, if_false, Option.getD_some]
    rw [clamp01_of_one_le hb]

/-- Witness for C3 (amended) on MD5, weak, dictionary-matched. -/
theorem C3_salting_amended_witness : ∃ ps pu : ℝ,
    crack_probability ⟨0, "password", "weak"⟩ "MD5" emptyParam true ["password"] = some ps
    ∧ crack_probability ⟨0, "password", "weak"⟩ "MD5" emptyParam false ["password"] = some pu
    ∧ (ps ≤ pu ∧ 0 < pu ∧ (ps = pu → ps = 1))
    ∧ salt_factor "MD5" < salt_factor "PBKDF2" := by
  have h1 := @crack_probability_fast_weak ⟨0, "password", "weak"⟩ "MD5" emptyParam true
    ["password"] (by decide) rfl (by decide)
  have h2 := @crack_probability_fast_weak ⟨0, "password", "weak"⟩ "MD5" emptyParam false
    ["password"] (by decide) rfl (by decide)
  exact ⟨_, _, h1, h2,
    C3_salting_amended.1 ⟨0, "password", "weak"⟩ "MD5" emptyParam ["password"] _ _ h1 h2,
    C3_salting_amended.2 "MD5" (by decide) "PBKDF2" (by decide)⟩

/-- C4: the dictionary-membership test is exactly raw-or-normalized list
membership; `"Password123!"` normalizes to `"password123"` and therefore
matches the dictionary entry `"password123"`. -/
theorem C4_normalized_membership :
    (∀ (pw : PwRecord) (d : List String),
        in_attacker_dict pw d = true ↔ pw.password ∈ d ∨ simplified pw.password ∈ d)
    ∧ simplified "Password123!" = "password123"
    ∧ in_attacker_dict ⟨0, "Password123!", "weak"⟩ ["password123"] = true :=
  ⟨fun pw d => by simp [in_attacker_dict], by decide, by decide⟩

/-- C6: whenever `crack_probability` returns a value, that value lies in
the unit interval: the base probability is clamped before the comparison
against the uniform draw. -/
theorem C6_probability_clamped (pw : PwRecord) (algo : String) (param : Param) (salted : Bool)
    (d : List String) (p : ℝ) (h : crack_probability pw algo param salted d = some p) :
    0 ≤ p ∧ p ≤ 1 := by
  rw [crack_probability, Option.map_eq_some'] at h
  obtain ⟨b, -, rfl⟩ := h
  exact ⟨clamp01_nonneg _, clamp01_le_one _⟩

/-- Witness for C6 at the MD5/weak/dictionary-hit input, whose probability
is 0.95. -/
theorem C6_probability_clamped_witness : 0 ≤ (0.95 : ℝ) ∧ (0.95 : ℝ) ≤ 1 :=
  C6_probability_clamped ⟨0, "password", "weak"⟩ "MD5" emptyParam false ["password"] 0.95
    (by rw [@crack_probability_fast_weak ⟨0, "password", "weak"⟩ "MD5" emptyParam false
          ["password"] (by decide) rfl (by decide)]
        simp only [Bool.false_eq_true, if_false]
        rw [clamp01_of_le_one (by norm_num) (by norm_num)])

/-- C5: the aggregated `cracked_rate` of every group equals
`cracked_sum / total` exactly; `generate_passwords` yields exactly `n`
records (2000 in the script); every group key the pipeline produces has
exactly one row per password record; and each top-level algorithm branch
contributes exactly |passwords| x |configs| x 2 x 2 rows. -/
theorem C5_aggregation :
    (∀ (l : List TrialRow) (k : GroupKey),
        summary_cracked_rate l k = (summary_cracked_sum l k : ℝ) / (summary_total l k : ℝ))
    ∧ (∀ (rand : Nat → ℝ) (pick : Nat → Nat → Nat) (n : Nat),
        (generate_passwords rand pick n).length = n)
    ∧ (∀ (pws : List PwRecord) (small_d large_d : List String) (u : Nat → ℝ) (k : GroupKey),
        k ∈ (pipelineBlocks small_d large_d).map blockKey →
        summary_total (mkTrialRows pws small_d large_d u) k = pws.length)
    ∧ (∀ (pws : List PwRecord) (small_d large_d : List String) (u : Nat → ℝ),
        (((mkTrialRows pws small_d large_d u).filter fun r => r.algorithm == "MD5").length
          = pws.length * 1 * 2 * 2)
        ∧ (((mkTrialRows pws small_d large_d u).filter fun r => r.algorithm == "SHA1").length
          = pws.length * 1 * 2 * 2)
        ∧ (((mkTrialRows pws small_d large_d u).filter fun r => r.algorithm == "SHA256").length
          = pws.length * 1 * 2 * 2)
        ∧ (((mkTrialRows pws small_d large_d u).filter fun r => r.algorithm == "PBKDF2").length
          = pws.length * 3 * 2 * 2)
        ∧ (((mkTrialRows pws small_d large_d u).filter fun r => r.algorithm == "bcrypt").length
          = pws.length * 3 * 2 * 2)
        ∧ (((mkTrialRows pws small_d large_d u).filter fun r => r.algorithm == "Argon2").length
          = pws.length * 3 * 2 * 2)) := by
  refine ⟨fun l k => ?_, fun rand pick n => by simp [generate_passwords],
    summary_total_eq, fun pws small_d large_d u => ?_⟩
  · rw [summary_cracked_rate, summary_cracked_sum, summary_total, sum_indicator_eq_count]
  · refine ⟨?_, ?_, ?_, ?_, ?_, ?_⟩
    · rw [algo_row_count,
        show ((pipelineBlocks [] []).map Block.algorithm).countP (fun a => a == "MD5") = 4
          from by decide]
      all_goals omega
    · rw [algo_row_count,
        show ((pipelineBlocks [] []).map Block.algorithm).countP (fun a => a == "SHA1") = 4
          from by decide]
      all_goals omega
    · rw [algo_row_count,
        show ((pipelineBlocks [] []).map Block.algorithm).countP (fun a => a == "SHA256") = 4
          from by decide]
      all_goals omega
    · rw [algo_row_count,
        show ((pipelineBlocks [] []).map Block.algorithm).countP (fun a => a == "PBKDF2") = 12
          from by decide]
      all_goals omega
    · rw [algo_row_count,
        show ((pipelineBlocks [] []).map Block.algorithm).countP (fun a => a == "bcrypt") = 12
          from by decide]
      all_goals omega
    · rw [algo_row_count,
        show ((pipelineBlocks [] []).map Block.algorithm).countP (fun a => a == "Argon2") = 12
          from by decide]
      all_goals omega

/-- Witness for C5 at a one-password run: the (MD5, "", unsalted, small)
group has exactly one row. -/
theorem C5_aggregation_witness :
    summary_total (mkTrialRows [⟨0, "password", "weak"⟩] ["x"] ["y"] (fun _ => 0))
      ("MD5", "", false, "small") = 1 :=
  C5_aggregation.2.2.1 [⟨0, "password", "weak"⟩] ["x"] ["y"] (fun _ => 0)
    ("MD5", "", false, "small") (by decide)

/-- C7: the run writes exactly five files, in program order
`passwords.csv`, `dictionary.txt`, `summary.csv` and the two plots; no
written table carries the raw per-trial column set, although the module
docstring promises a `results.csv` with those columns. -/
theorem C7_raw_table_never_written :
    written_artifacts.map Artifact.filename =
      ["passwords.csv", "dictionary.txt", "summary.csv",
       "hash_time_by_algo.png", "cracked_rate_by_algo.png"]
    ∧ (written_artifacts.filter fun a => a.columns == some raw_trial_columns).length = 0 := by
  constructor
  · rfl
  · decide

/-- C8: the contents of the small attacker dictionary depend on the
iteration order of the Python set, which the fixed random seed does not
control: two valid enumerations of the same dictionary set (one
seed-words-first, one fillers-first) give small dictionaries that disagree
on "password", and the crack probability of the weak record
(0, "password") under MD5 changes from 0.95 to 0.05 between them. -/
theorem C8_dict_prefix_order_dependent :
    (dict_fillers ++ dict_pre).Perm dict_words_elems
    ∧ "password" ∈ small_dict_of dict_words_elems
    ∧ "password" ∉ small_dict_of (dict_fillers ++ dict_pre)
    ∧ crack_probability ⟨0, "password", "weak"⟩ "MD5" emptyParam false
        (small_dict_of dict_words_elems) = some 0.95
    ∧ crack_probability ⟨0, "password", "weak"⟩ "MD5" emptyParam false
        (small_dict_of (dict_fillers ++ dict_pre)) = some 0.05 := by
  have hnot := pw_not_in_fillers_take
  refine ⟨List.perm_append_comm, by decide, hnot, ?_, ?_⟩
  · rw [crack_probability_fast_weak emptyParam false (by decide) rfl (by decide)]
    simp only [Bool.false_eq_true, if_false]
    rw [clamp01_of_le_one (by norm_num) (by norm_num)]
  · have hfalse : in_attacker_dict ⟨0, "password", "weak"⟩
        (small_dict_of (dict_fillers ++ dict_pre)) = false := by
      simp [in_attacker_dict, show simplified "password" = "password" from by decide, hnot]
    rw [crack_probability_not_in_dict emptyParam false hfalse]
    norm_num [clamp01_of_le_one]

/-- C9: for the slow schemes on a dictionary-matched password, the
strength label (and the record id) does not affect `crack_probability`;
for a fast digest it does (0.95 for weak against 0.2 for strong). -/
theorem C9_slow_schemes_strength_blind :
    (∀ (pwd : String) (i1 i2 : Nat) (st1 st2 : String) (algo : String),
        algo ∈ ["PBKDF2", "bcrypt", "Argon2"] →
        ∀ (param : Param) (salted : Bool) (d : List String),
        in_attacker_dict ⟨i1, pwd, st1⟩ d = true →
        crack_probability ⟨i1, pwd, st1⟩ algo param salted d
          = crack_probability ⟨i2, pwd, st2⟩ algo param salted d)
    ∧ crack_probability ⟨0, "password", "weak"⟩ "MD5" emptyParam false ["password"]
        ≠ crack_probability ⟨0, "password", "strong"⟩ "MD5" emptyParam false ["password"] := by
  constructor
  · intro pwd i1 i2 st1 st2 algo halgo param salted d hd
    have hd2 : in_attacker_dict ⟨i2, pwd, st2⟩ d = true := hd
    fin_cases halgo
    · rw [crack_probability_pbkdf2 param salted hd, crack_probability_pbkdf2 param salted hd2]
    · rw [crack_probability_bcrypt param salted hd, crack_probability_bcrypt param salted hd2]
    · rw [crack_probability_argon2 param salted hd, crack_probability_argon2 param salted hd2]
  · intro h
    have e1 : clamp01 0.95 = 0.95 := clamp01_of_le_one (by norm_num) (by norm_num)
    have e2 : clamp01 0.2 = 0.2 := clamp01_of_le_one (by norm_num) (by norm_num)
    simp [crack_probability, crack_base, in_attacker_dict, simplified, fastAlgos, e1, e2] at h
    norm_num at h

/-- Witness for C9: PBKDF2 on "password" with labels weak and strong. -/
theorem C9_slow_schemes_strength_blind_witness :
    crack_probability ⟨0, "password", "weak"⟩ "PBKDF2" emptyParam false ["password"]
      = crack_probability ⟨1, "password", "strong"⟩ "PBKDF2" emptyParam false ["password"] :=
  C9_slow_schemes_strength_blind.1 "password" 0 1 "weak" "strong" "PBKDF2" (by decide)
    emptyParam false ["password"] (by decide)

/-- C10: on a dictionary hit with an algorithm outside the six known
names, `base` is never assigned and the function fails (returns no value);
for the six names the trial loop passes, it always returns a value. -/
theorem C10_base_partiality (pw : PwRecord) (param : Param) (salted : Bool) (d : List String) :
    (∀ algo : String, in_attacker_dict pw d = true →
        algo ∉ ["MD5", "SHA1", "SHA256", "PBKDF2", "bcrypt", "Argon2"] →
        crack_probability pw algo param salted d = none)
    ∧ (∀ algo : String, algo ∈ ["MD5", "SHA1", "SHA256", "PBKDF2", "bcrypt", "Argon2"] →
        ∃ p, crack_probability pw algo param salted d = some p) := by
  constructor
  · intro algo hdict halgo
    simp only [List.mem_cons, List.not_mem_nil, or_false, not_or] at halgo
    obtain ⟨h1, h2, h3, h4, h5, h6⟩ := halgo
    simp [crack_probability, crack_base, hdict, fastAlgos, h1, h2, h3, h4, h5, h6]
  · intro algo halgo
    fin_cases halgo <;> cases hdict : in_attacker_dict pw d <;>
      simp [crack_probability, crack_base, hdict, fastAlgos]

/-- Witness for C10: the unknown name "NTLM" on a dictionary hit yields no
value; "MD5" yields one. -/
theorem C10_base_partiality_witness :
    crack_probability ⟨0, "password", "weak"⟩ "NTLM" emptyParam false ["password"] = none
    ∧ ∃ p, crack_probability ⟨0, "password", "weak"⟩ "MD5" emptyParam false ["password"]
        = some p :=
  ⟨(C10_base_partiality ⟨0, "password", "weak"⟩ emptyParam false ["password"]).1 "NTLM"
      (by decide) (by decide),
   (C10_base_partiality ⟨0, "password", "weak"⟩ emptyParam false ["password"]).2 "MD5"
      (by decide)⟩
